import Mathlib

/-!
# Verification of the binary-os-sim bitwise operation engine

Shallow embedding of the core logic of `src/lib/index.js` of the
`binary-os-sim` repository: the `Processor` class (`computeBitOperation`
and `performOperation`), the input-validation predicate of
`InputHandler.getBinaryInput`, and the operation enumeration of
`InputHandler.chooseOperation`.  JavaScript strings are embedded as Lean
`String`, JavaScript numbers arising from `parseInt(s, 2)` as
`Option Nat` (`none` standing for `NaN`).
-/

namespace BinaryOsSim

/-- JS `s.padStart(n, c)`: left-pad `s` with copies of `c` up to length `n`;
if `s` is already at least `n` long it is returned unchanged. -/
def padStart (s : String) (n : Nat) (c : Char) : String :=
  String.mk (List.replicate (n - s.length) c) ++ s

/-- JS `s.padEnd(n, c)`: right-pad `s` with copies of `c` up to length `n`. -/
def padEnd (s : String) (n : Nat) (c : Char) : String :=
  s ++ String.mk (List.replicate (n - s.length) c)

/-- The per-bit complement used inline in `performOperation`'s NOT branch:
`bit => (bit === '0' ? '1' : '0')` (line 365 of `src/lib/index.js`). -/
def jsNotBit (bit : Char) : Char :=
  if bit = '0' then '1' else '0'

/-- Embedding of `Processor.computeBitOperation` (lines 326-334 of `src/lib/index.js`):
dispatch on the operation name by string equality, with a `'0'` fallback
for any unrecognized operation. -/
def computeBitOperation (bit1 bit2 : Char) (operation : String) : Char :=
  if operation = "AND" then (if bit1 = '1' ∧ bit2 = '1' then '1' else '0')
  else if operation = "OR" then (if bit1 = '1' ∨ bit2 = '1' then '1' else '0')
  else if operation = "XOR" then (if bit1 ≠ bit2 then '1' else '0')
  else if operation = "NAND" then (if bit1 = '1' ∧ bit2 = '1' then '0' else '1')
  else if operation = "NOR" then (if bit1 = '0' ∧ bit2 = '0' then '1' else '0')
  else if operation = "XNOR" then (if bit1 = bit2 then '1' else '0')
  else '0'

/-- The closed operation enumeration of `InputHandler.chooseOperation`
(line 287 of `src/lib/index.js`). -/
def operations : List String :=
  ["AND", "OR", "XOR", "NOT", "NAND", "NOR", "XNOR"]

/-- The validation predicate of `InputHandler.getBinaryInput`
(line 277 of `src/lib/index.js`): the regular expression `^[01]{1,8}$`. -/
def isValidBinary (s : String) : Bool :=
  decide (1 ≤ s.length) && decide (s.length ≤ 8) &&
    s.data.all (fun c => c = '0' || c = '1')

/-- Accumulating loop of JS `parseInt(s, 2)`: consume binary digits from the
most significant end, stopping at the first character that is not a binary
digit. -/
def parseIntBinAux : List Char → Nat → Nat
  | [], acc => acc
  | c :: cs, acc =>
    if c = '0' ∨ c = '1' then
      parseIntBinAux cs (2 * acc + (if c = '1' then 1 else 0))
    else acc

/-- JS `parseInt(s, 2)`: `none` (NaN) when no leading binary digit exists,
otherwise the value of the longest binary-digit prefix. -/
def parseIntBin (s : String) : Option Nat :=
  match s.data with
  | [] => none
  | c :: _ => if c = '0' ∨ c = '1' then some (parseIntBinAux s.data 0) else none

/-- The per-bit explanation string of the NOT branch
(line 369 of `src/lib/index.js`). -/
def mkNotExplanation (bitA resBit : Char) : String :=
  String.singleton bitA ++ " NOT = " ++ String.singleton resBit

/-- The per-bit explanation string of the binary branch
(line 377 of `src/lib/index.js`). -/
def mkBinaryExplanation (bit1 bit2 : Char) (operation : String) (resBit : Char) : String :=
  String.singleton bit1 ++ " " ++ operation ++ " " ++ String.singleton bit2
    ++ " = " ++ String.singleton resBit

/-- A table row of the NOT branch (line 370 of `src/lib/index.js`). -/
def mkNotRow (i : Nat) (bitA resBit : Char) : String :=
  "  " ++ padEnd (Nat.repr i) 2 ' ' ++ " | " ++ padStart (String.singleton bitA) 2 ' '
    ++ " | " ++ padEnd (padStart (String.singleton resBit) 3 ' ') 6 ' '
    ++ " | " ++ mkNotExplanation bitA resBit

/-- A table row of the binary branch (line 379 of `src/lib/index.js`). -/
def mkBinaryRow (i : Nat) (bit1 bit2 : Char) (operation : String) (resBit : Char) : String :=
  "  " ++ padEnd (Nat.repr i) 2 ' ' ++ " | " ++ padStart (String.singleton bit1) 2 ' '
    ++ " | " ++ padStart (String.singleton bit2) 2 ' '
    ++ " | " ++ padEnd (padStart (String.singleton resBit) 3 ' ') 6 ' '
    ++ " | " ++ mkBinaryExplanation bit1 bit2 operation resBit

/-- The observable outcome of one `Processor.performOperation` call: the
returned result string, the decimal value `parseInt(result, 2)` printed and
logged alongside it, the per-bit `explanation` strings, and the pushed
`tableOutput` rows. -/
structure OperationResult where
  result : String
  decimal : Option Nat
  explanations : List String
  tableOutput : List String
deriving Repr, DecidableEq

/-- Pure computational content of `Processor.performOperation`
(lines 344-388 of `src/lib/index.js`): pad both operands to the larger
length, then either complement `binary1` positionwise (NOT) or combine the
two operands positionwise with `computeBitOperation`, collecting the result
string, its decimal value, and the per-bit explanations and table rows. -/
def performOperation (binary1 binary2 operation : String) : OperationResult :=
  let maxLen := max binary1.length binary2.length
  let b1 := padStart binary1 maxLen '0'
  let b2 := padStart binary2 maxLen '0'
  if operation = "NOT" then
    let result := String.mk (b1.data.map jsNotBit)
    let pairs := b1.data.zip result.data
    { result := result
      decimal := parseIntBin result
      explanations := pairs.map (fun p => mkNotExplanation p.1 p.2)
      tableOutput := pairs.enum.map (fun q => mkNotRow q.1 q.2.1 q.2.2) }
  else
    let pairs := b1.data.zip b2.data
    let resBits := pairs.map (fun p => computeBitOperation p.1 p.2 operation)
    let result := String.mk resBits
    { result := result
      decimal := parseIntBin result
      explanations := (pairs.zip resBits).map
        (fun q => mkBinaryExplanation q.1.1 q.1.2 operation q.2)
      tableOutput := (pairs.zip resBits).enum.map
        (fun q => mkBinaryRow q.1 q.2.1.1 q.2.1.2 operation q.2.2) }

/-- The unsigned base-2 interpretation of a binary string, most-significant
bit first (the spec's decimal value of a `BinaryString`). -/
def binValue (s : String) : Nat :=
  s.data.foldl (fun acc c => 2 * acc + (if c = '1' then 1 else 0)) 0

/-- Every character of the list is a binary digit. -/
def allBin (l : List Char) : Prop := ∀ c ∈ l, c = '0' ∨ c = '1'

/- ### Basic facts about the string helpers -/

lemma data_mk (l : List Char) : (String.mk l).data = l := rfl

lemma mk_data (s : String) : String.mk s.data = s := by cases s; rfl

lemma data_append (s t : String) : (s ++ t).data = s.data ++ t.data := by
  cases s; cases t; rfl

lemma length_eq_data (s : String) : s.length = s.data.length := rfl

lemma padStart_data (s : String) (n : Nat) (c : Char) :
    (padStart s n c).data = List.replicate (n - s.length) c ++ s.data := by
  simp [padStart, data_append, data_mk]

lemma padStart_length (s : String) (n : Nat) (c : Char) :
    (padStart s n c).length = max n s.length := by
  rw [length_eq_data, padStart_data, List.length_append, List.length_replicate,
    ← length_eq_data]
  omega

lemma padStart_length_of_le (s : String) (n : Nat) (c : Char) (h : s.length ≤ n) :
    (padStart s n c).length = n := by
  rw [padStart_length]; omega

lemma padStart_eq_self (s : String) (n : Nat) (c : Char) (h : n ≤ s.length) :
    padStart s n c = s := by
  have h0 : n - s.length = 0 := by omega
  unfold padStart
  rw [h0]
  cases s
  rfl

lemma padStart_allBin (s : String) (n : Nat) (h : allBin s.data) :
    allBin (padStart s n '0').data := by
  rw [padStart_data]
  intro c hc
  rcases List.mem_append.1 hc with h1 | h2
  · exact Or.inl (List.eq_of_mem_replicate h1)
  · exact h c h2

lemma isValidBinary_length {s : String} (h : isValidBinary s = true) :
    1 ≤ s.length ∧ s.length ≤ 8 := by
  simp only [isValidBinary, Bool.and_eq_true, decide_eq_true_eq] at h
  exact ⟨h.1.1, h.1.2⟩

lemma isValidBinary_allBin {s : String} (h : isValidBinary s = true) :
    allBin s.data := by
  simp only [isValidBinary, Bool.and_eq_true, decide_eq_true_eq, List.all_eq_true,
    Bool.or_eq_true] at h
  exact h.2

/- ### `parseIntBin` computes `binValue` on valid binary strings -/

lemma parseIntBinAux_eq_foldl :
    ∀ (l : List Char) (acc : Nat), allBin l →
      parseIntBinAux l acc = l.foldl (fun acc c => 2 * acc + (if c = '1' then 1 else 0)) acc := by
  intro l
  induction l with
  | nil => intro acc _; rfl
  | cons c cs ih =>
    intro acc h
    have hc : c = '0' ∨ c = '1' := h c (List.mem_cons_self c cs)
    have hcs : allBin cs := fun x hx => h x (List.mem_cons_of_mem c hx)
    simp only [parseIntBinAux, if_pos hc, List.foldl_cons]
    exact ih _ hcs

lemma parseIntBin_eq_some (s : String) (h1 : s.data ≠ []) (h2 : allBin s.data) :
    parseIntBin s = some (binValue s) := by
  rcases hd : s.data with _ | ⟨c, cs⟩
  · exact absurd hd h1
  · rw [hd] at h2
    have hc : c = '0' ∨ c = '1' := h2 c (List.mem_cons_self c cs)
    unfold parseIntBin binValue
    rw [hd]
    simp only [if_pos hc]
    exact congrArg some (parseIntBinAux_eq_foldl _ _ h2)

/-- The function `computeBitOperation` always yields a binary digit. -/
lemma computeBit_isBit (bit1 bit2 : Char) (operation : String) :
    computeBitOperation bit1 bit2 operation = '0' ∨
      computeBitOperation bit1 bit2 operation = '1' := by
  unfold computeBitOperation
  repeat' split
  all_goals simp

/-- The function `jsNotBit` always yields a binary digit. -/
lemma jsNotBit_isBit (bit : Char) : jsNotBit bit = '0' ∨ jsNotBit bit = '1' := by
  unfold jsNotBit; split <;> simp

/- ### Claim theorems: bit level -/

/-- C1: for every pair of bits `a, b ∈ {'0','1'}` and each of the six binary
operations, `computeBitOperation` returns exactly the bit demanded by the
spec's truth table: AND is `'1'` iff both are `'1'`; OR is `'1'` iff at
least one is `'1'`; XOR is `'1'` iff they differ; NAND, NOR, XNOR are the
respective negations. -/
theorem computeBit_truth_table (a b : Char) (ha : a = '0' ∨ a = '1')
    (hb : b = '0' ∨ b = '1') :
    computeBitOperation a b "AND" = (if a = '1' ∧ b = '1' then '1' else '0') ∧
    computeBitOperation a b "OR" = (if a = '1' ∨ b = '1' then '1' else '0') ∧
    computeBitOperation a b "XOR" = (if a ≠ b then '1' else '0') ∧
    computeBitOperation a b "NAND" = (if a = '1' ∧ b = '1' then '0' else '1') ∧
    computeBitOperation a b "NOR" = (if a = '1' ∨ b = '1' then '0' else '1') ∧
    computeBitOperation a b "XNOR" = (if a ≠ b then '0' else '1') := by
  rcases ha with rfl | rfl <;> rcases hb with rfl | rfl <;> decide

/-- Witness for C1 at the concrete bits `a = '1'`, `b = '0'`. -/
theorem computeBit_truth_table_witness :
    computeBitOperation '1' '0' "AND" = (if ('1' : Char) = '1' ∧ ('0' : Char) = '1' then '1' else '0') ∧
    computeBitOperation '1' '0' "OR" = (if ('1' : Char) = '1' ∨ ('0' : Char) = '1' then '1' else '0') ∧
    computeBitOperation '1' '0' "XOR" = (if ('1' : Char) ≠ '0' then '1' else '0') ∧
    computeBitOperation '1' '0' "NAND" = (if ('1' : Char) = '1' ∧ ('0' : Char) = '1' then '0' else '1') ∧
    computeBitOperation '1' '0' "NOR" = (if ('1' : Char) = '1' ∨ ('0' : Char) = '1' then '0' else '1') ∧
    computeBitOperation '1' '0' "XNOR" = (if ('1' : Char) ≠ '0' then '0' else '1') :=
  computeBit_truth_table '1' '0' (Or.inr rfl) (Or.inl rfl)

/-- C8: the negation laws hold at the bit level: on bits `{'0','1'}`,
NAND is the complement of AND, NOR the complement of OR, and XNOR the
complement of XOR (complement taken by the code's own `jsNotBit`). -/
theorem negation_laws (a b : Char) (ha : a = '0' ∨ a = '1')
    (hb : b = '0' ∨ b = '1') :
    computeBitOperation a b "NAND" = jsNotBit (computeBitOperation a b "AND") ∧
    computeBitOperation a b "NOR" = jsNotBit (computeBitOperation a b "OR") ∧
    computeBitOperation a b "XNOR" = jsNotBit (computeBitOperation a b "XOR") := by
  rcases ha with rfl | rfl <;> rcases hb with rfl | rfl <;> decide

/-- Witness for C8 at the concrete bits `a = '0'`, `b = '1'`. -/
theorem negation_laws_witness :
    computeBitOperation '0' '1' "NAND" = jsNotBit (computeBitOperation '0' '1' "AND") ∧
    computeBitOperation '0' '1' "NOR" = jsNotBit (computeBitOperation '0' '1' "OR") ∧
    computeBitOperation '0' '1' "XNOR" = jsNotBit (computeBitOperation '0' '1' "XOR") :=
  negation_laws '0' '1' (Or.inl rfl) (Or.inr rfl)

/- ### Claim theorems: error handling (C2, C3) -/

/-- C2 counterexample: `"MAYBE"` is outside the operation enumeration, yet
evaluation does not fail — it silently returns the result `"0"` with
decimal `0` and a normal explanation entry. -/
theorem maybe_operation_produces_result :
    "MAYBE" ∉ operations ∧
    (performOperation "1" "1" "MAYBE").result = "0" ∧
    (performOperation "1" "1" "MAYBE").decimal = some 0 ∧
    (performOperation "1" "1" "MAYBE").explanations = ["1 MAYBE 1 = 0"] := by
  decide

lemma map_const_eq_replicate {α β : Type} (l : List α) (f : α → β) (b : β)
    (h : ∀ x, f x = b) : l.map f = List.replicate l.length b := by
  induction l with
  | nil => rfl
  | cons x xs ih => simp [h x, ih, List.replicate_succ]

lemma computeBit_unknown (bit1 bit2 : Char) (op : String) (h : op ∉ operations) :
    computeBitOperation bit1 bit2 op = '0' := by
  have hAND : op ≠ "AND" := fun he => h (by rw [he]; decide)
  have hOR : op ≠ "OR" := fun he => h (by rw [he]; decide)
  have hXOR : op ≠ "XOR" := fun he => h (by rw [he]; decide)
  have hNAND : op ≠ "NAND" := fun he => h (by rw [he]; decide)
  have hNOR : op ≠ "NOR" := fun he => h (by rw [he]; decide)
  have hXNOR : op ≠ "XNOR" := fun he => h (by rw [he]; decide)
  unfold computeBitOperation
  rw [if_neg hAND, if_neg hOR, if_neg hXOR, if_neg hNAND, if_neg hNOR, if_neg hXNOR]

/-- C2 amended: for an operation name outside the seven-symbol enumeration,
the engine does not fail: `computeBitOperation` falls through to `'0'` on
every bit, so `performOperation` silently returns the all-zeros string of
the common width.  (The operation name is validated only by the interactive
`chooseOperation` loop, which re-prompts until the name is recognized.) -/
theorem unknown_operation_silent_zero (A B op : String) (h : op ∉ operations) :
    (performOperation A B op).result =
      String.mk (List.replicate (max A.length B.length) '0') := by
  have hNOT : op ≠ "NOT" := fun he => h (by rw [he]; decide)
  have hl1 : (padStart A (max A.length B.length) '0').data.length
      = max A.length B.length := by
    rw [← length_eq_data]
    exact padStart_length_of_le _ _ _ (Nat.le_max_left _ _)
  have hl2 : (padStart B (max A.length B.length) '0').data.length
      = max A.length B.length := by
    rw [← length_eq_data]
    exact padStart_length_of_le _ _ _ (Nat.le_max_right _ _)
  simp only [performOperation, if_neg hNOT]
  rw [map_const_eq_replicate
    ((padStart A (max A.length B.length) '0').data.zip
      (padStart B (max A.length B.length) '0').data)
    (fun p => computeBitOperation p.1 p.2 op) '0'
    (fun p => computeBit_unknown p.1 p.2 op h)]
  rw [List.length_zip, hl1, hl2, Nat.min_self]

/-- Witness for the amended C2 at the spec's example `evaluate("1","1","MAYBE")`. -/
theorem unknown_operation_silent_zero_witness :
    (performOperation "1" "1" "MAYBE").result =
      String.mk (List.replicate (max "1".length "1".length) '0') :=
  unknown_operation_silent_zero "1" "1" "MAYBE" (by decide)

/-- C3 counterexample: `evaluate("102","11",AND)` does not fail with
`InvalidOperand`; it silently treats the character `'2'` exactly like
`'0'` — the whole observable outcome is identical to evaluating
`"100" AND "11"`. -/
theorem invalid_operand_silently_coerced :
    isValidBinary "102" = false ∧
    (performOperation "102" "11" "AND").result = (performOperation "100" "11" "AND").result ∧
    (performOperation "102" "11" "AND").decimal = (performOperation "100" "11" "AND").decimal ∧
    (performOperation "102" "11" "AND").result = "000" := by
  decide

/-- C3 amended: the engine performs no operand validation (validation lives
only in the interactive input loop, whose predicate rejects `"102"`); passed
`"102"` directly, `performOperation` silently produces the result `"000"`
with decimal `0` and no error. -/
theorem no_operand_validation_in_engine :
    isValidBinary "102" = false ∧
    (performOperation "102" "11" "AND").result = "000" ∧
    (performOperation "102" "11" "AND").decimal = some 0 := by
  decide

/- ### Claim theorems: the NOT operation (C4, C5) -/

/-- C4 counterexample: the result of NOT depends on `operandB` — with the
valid operands `"000000"` and `"0"` for `operandB`, `evaluate("1100", ·, NOT)`
returns the different results `"110011"` (decimal 51) and `"0011"`
(decimal 3), because both operands are first padded to the longer length. -/
theorem not_result_depends_on_operandB :
    isValidBinary "000000" = true ∧ isValidBinary "0" = true ∧
    (performOperation "1100" "000000" "NOT").result = "110011" ∧
    (performOperation "1100" "000000" "NOT").decimal = some 51 ∧
    (performOperation "1100" "0" "NOT").result = "0011" ∧
    (performOperation "1100" "0" "NOT").decimal = some 3 ∧
    performOperation "1100" "000000" "NOT" ≠ performOperation "1100" "0" "NOT" := by
  decide

/-- C4 amended: NOT ignores the content of `operandB` but not its length:
whenever two second operands do not exceed `operandA` in length, the whole
`OperationResult` of NOT is identical for them. -/
theorem not_ignores_operandB_content (A B B' : String)
    (hB : B.length ≤ A.length) (hB' : B'.length ≤ A.length) :
    performOperation A B "NOT" = performOperation A B' "NOT" := by
  have h1 : max A.length B.length = A.length := Nat.max_eq_left hB
  have h2 : max A.length B'.length = A.length := Nat.max_eq_left hB'
  simp only [performOperation, if_pos (rfl : ("NOT" : String) = "NOT"), h1, h2, if_true]

/-- Witness for the amended C4: `operandB = "0"` and `operandB = "11"` give
the same NOT result on `"1100"`. -/
theorem not_ignores_operandB_content_witness :
    performOperation "1100" "0" "NOT" = performOperation "1100" "11" "NOT" :=
  not_ignores_operandB_content "1100" "0" "11" (by decide) (by decide)

/-- C5 counterexample: `computeBitOperation` has no NOT case — under the
operation name `"NOT"` it falls through to the default and returns `'0'`
for both input bits, instead of the complement demanded by the claim
(`'1'` for input `'0'`). -/
theorem computeBit_not_defaults_to_zero :
    computeBitOperation '0' '0' "NOT" = '0' ∧
    computeBitOperation '1' '0' "NOT" = '0' ∧
    computeBitOperation '0' '0' "NOT" ≠ '1' := by
  decide

/-- C5 amended: the positionwise complement for NOT is implemented inline in
`performOperation` (not via `computeBitOperation`): for every valid
`operandA` and any `operandB` no longer than it, the NOT result is the
positionwise complement of `operandA` and the reported decimal is its
base-2 value. -/
theorem not_complements_operandA (A B : String)
    (hA : isValidBinary A = true) (hB : B.length ≤ A.length) :
    (performOperation A B "NOT").result = String.mk (A.data.map jsNotBit) ∧
    (performOperation A B "NOT").decimal
      = some (binValue (String.mk (A.data.map jsNotBit))) := by
  have h1 : max A.length B.length = A.length := Nat.max_eq_left hB
  have hpad : padStart A (max A.length B.length) '0' = A := by
    rw [h1]; exact padStart_eq_self _ _ _ le_rfl
  have hne : (String.mk (A.data.map jsNotBit)).data ≠ [] := by
    rw [data_mk]
    intro hmap
    have hnil : A.data = [] := List.map_eq_nil_iff.1 hmap
    have hlen := (isValidBinary_length hA).1
    rw [length_eq_data, hnil] at hlen
    simp at hlen
  have hbin : allBin (String.mk (A.data.map jsNotBit)).data := by
    rw [data_mk]
    intro c hc
    rcases List.mem_map.1 hc with ⟨x, _, rfl⟩
    exact jsNotBit_isBit x
  constructor
  · simp only [performOperation, if_pos (rfl : ("NOT" : String) = "NOT"), hpad, if_true]
  · simp only [performOperation, if_pos (rfl : ("NOT" : String) = "NOT"), hpad, if_true]
    exact parseIntBin_eq_some _ hne hbin

/-- Witness for the amended C5 at the spec's example
`evaluate("1100", absent, NOT)` (absent modelled by the short operand `"0"`):
the result is the complement `"0011"` with decimal 3. -/
theorem not_complements_operandA_witness :
    (performOperation "1100" "0" "NOT").result = String.mk ("1100".data.map jsNotBit) ∧
    (performOperation "1100" "0" "NOT").decimal
      = some (binValue (String.mk ("1100".data.map jsNotBit))) :=
  not_complements_operandA "1100" "0" (by decide) (by decide)

/- ### Structure of the binary-branch result -/

lemma map_zip_eq_zipWith {α β γ : Type} (f : α → β → γ) :
    ∀ (l1 : List α) (l2 : List β),
      (l1.zip l2).map (fun p => f p.1 p.2) = List.zipWith f l1 l2 := by
  intro l1
  induction l1 with
  | nil => intro l2; rfl
  | cons x xs ih =>
    intro l2
    cases l2 with
    | nil => rfl
    | cons y ys => simp only [List.zip_cons_cons, List.map_cons, List.zipWith_cons_cons, ih]

lemma zip_map_self_map {α β γ : Type} (f : α → β) (g : α → β → γ) :
    ∀ l : List α, (l.zip (l.map f)).map (fun q => g q.1 q.2) = l.map (fun a => g a (f a)) := by
  intro l
  induction l with
  | nil => rfl
  | cons x xs ih => simp only [List.map_cons, List.zip_cons_cons, ih]

lemma padStart_data_length (s : String) (n : Nat) (c : Char) (h : s.length ≤ n) :
    (padStart s n c).data.length = n := by
  rw [← length_eq_data]
  exact padStart_length_of_le _ _ _ h

lemma performOperation_result_of_ne_not (A B op : String) (h : op ≠ "NOT") :
    (performOperation A B op).result.data =
      List.zipWith (fun c d => computeBitOperation c d op)
        (padStart A (max A.length B.length) '0').data
        (padStart B (max A.length B.length) '0').data := by
  simp only [performOperation, if_neg h, data_mk]
  exact map_zip_eq_zipWith (fun c d => computeBitOperation c d op) _ _

lemma performOperation_result_length (A B op : String) (h : op ≠ "NOT") :
    (performOperation A B op).result.length = max A.length B.length := by
  rw [length_eq_data, performOperation_result_of_ne_not A B op h, List.length_zipWith,
    padStart_data_length _ _ _ (Nat.le_max_left _ _),
    padStart_data_length _ _ _ (Nat.le_max_right _ _), Nat.min_self]

lemma zipWith_computeBit_allBin (op : String) :
    ∀ (l1 l2 : List Char),
      allBin (List.zipWith (fun c d => computeBitOperation c d op) l1 l2) := by
  intro l1
  induction l1 with
  | nil => intro l2 c hc; simp at hc
  | cons x xs ih =>
    intro l2
    cases l2 with
    | nil => intro c hc; simp at hc
    | cons y ys =>
      intro c hc
      simp only [List.zipWith_cons_cons] at hc
      rcases List.mem_cons.1 hc with rfl | hmem
      · exact computeBit_isBit x y op
      · exact ih ys c hmem

lemma performOperation_decimal_of_ne_not (A B op : String) (h : op ≠ "NOT")
    (hw : 1 ≤ max A.length B.length) :
    (performOperation A B op).decimal
      = some (binValue (performOperation A B op).result) := by
  have hdec : (performOperation A B op).decimal
      = parseIntBin (performOperation A B op).result := by
    simp only [performOperation, if_neg h]
  rw [hdec]
  apply parseIntBin_eq_some
  · intro hn
    have hlen := performOperation_result_length A B op h
    rw [length_eq_data, hn] at hlen
    simp at hlen
    omega
  · rw [performOperation_result_of_ne_not A B op h]
    exact zipWith_computeBit_allBin op _ _

/-- C6: for valid operands and each binary operation, `performOperation`
left-pads both operands with `'0'` to the larger length, the result has
exactly that width and is the positionwise combination of the padded
operands, and the reported decimal is the unsigned base-2 interpretation of
the result string; in particular `evaluate("101","11",AND)` is `"001"`
(decimal 1) and `evaluate("1010","0101",OR)` is `"1111"` (decimal 15). -/
theorem eval_width_padding_decimal (A B op : String)
    (hA : isValidBinary A = true) (hB : isValidBinary B = true)
    (hop : op ∈ ["AND", "OR", "XOR", "NAND", "NOR", "XNOR"]) :
    (performOperation A B op).result.length = max A.length B.length ∧
    (performOperation A B op).result.data =
      List.zipWith (fun c d => computeBitOperation c d op)
        (padStart A (max A.length B.length) '0').data
        (padStart B (max A.length B.length) '0').data ∧
    (performOperation A B op).decimal
      = some (binValue (performOperation A B op).result) ∧
    (performOperation "101" "11" "AND").result = "001" ∧
    (performOperation "101" "11" "AND").decimal = some 1 ∧
    (performOperation "1010" "0101" "OR").result = "1111" ∧
    (performOperation "1010" "0101" "OR").decimal = some 15 := by
  have hne : op ≠ "NOT" := by
    intro he
    rw [he] at hop
    exact absurd hop (by decide)
  have hw : 1 ≤ max A.length B.length := by
    have := (isValidBinary_length hA).1
    omega
  exact ⟨performOperation_result_length A B op hne,
    performOperation_result_of_ne_not A B op hne,
    performOperation_decimal_of_ne_not A B op hne hw,
    by decide, by decide, by decide, by decide⟩

/-- Witness for C6 at the spec's example `evaluate("101","11",AND)`. -/
theorem eval_width_padding_decimal_witness :
    (performOperation "101" "11" "AND").result.length = max "101".length "11".length ∧
    (performOperation "101" "11" "AND").result.data =
      List.zipWith (fun c d => computeBitOperation c d "AND")
        (padStart "101" (max "101".length "11".length) '0').data
        (padStart "11" (max "101".length "11".length) '0').data ∧
    (performOperation "101" "11" "AND").decimal
      = some (binValue (performOperation "101" "11" "AND").result) ∧
    (performOperation "101" "11" "AND").result = "001" ∧
    (performOperation "101" "11" "AND").decimal = some 1 ∧
    (performOperation "1010" "0101" "OR").result = "1111" ∧
    (performOperation "1010" "0101" "OR").decimal = some 15 :=
  eval_width_padding_decimal "101" "11" "AND" (by decide) (by decide) (by decide)

/- ### The explanation sequence (C7) -/

lemma performOperation_explanations_not (A B : String) :
    (performOperation A B "NOT").explanations =
      (padStart A (max A.length B.length) '0').data.map
        (fun a => mkNotExplanation a (jsNotBit a)) := by
  simp only [performOperation, if_pos (rfl : ("NOT" : String) = "NOT"), if_true, data_mk]
  exact zip_map_self_map jsNotBit mkNotExplanation _

lemma performOperation_result_not (A B : String) :
    (performOperation A B "NOT").result.data =
      (padStart A (max A.length B.length) '0').data.map jsNotBit := by
  simp only [performOperation, if_pos (rfl : ("NOT" : String) = "NOT"), if_true, data_mk]

lemma zip_map_self_map_pair {α β γ : Type} (f : α → β) (g : α × β → γ) :
    ∀ l : List α, (l.zip (l.map f)).map g = l.map (fun a => g (a, f a)) := by
  intro l
  induction l with
  | nil => rfl
  | cons x xs ih => simp only [List.map_cons, List.zip_cons_cons, ih]

lemma performOperation_explanations_ne_not (A B op : String) (h : op ≠ "NOT") :
    (performOperation A B op).explanations =
      List.zipWith (fun a b => mkBinaryExplanation a b op (computeBitOperation a b op))
        (padStart A (max A.length B.length) '0').data
        (padStart B (max A.length B.length) '0').data := by
  simp only [performOperation, if_neg h]
  exact Eq.trans
    (zip_map_self_map_pair (fun p : Char × Char => computeBitOperation p.1 p.2 op)
      (fun q => mkBinaryExplanation q.1.1 q.1.2 op q.2) _)
    (map_zip_eq_zipWith
      (fun a b => mkBinaryExplanation a b op (computeBitOperation a b op)) _ _)

lemma getD_map_of_lt {α β : Type} (f : α → β) (d : β) (d' : α) :
    ∀ (l : List α) (i : Nat), i < l.length → (l.map f).getD i d = f (l.getD i d') := by
  intro l
  induction l with
  | nil => intro i hi; simp at hi
  | cons x xs ih =>
    intro i hi
    cases i with
    | zero => rfl
    | succ j =>
      simp only [List.map_cons, List.getD_cons_succ]
      exact ih j (by simpa using hi)

lemma getD_zipWith_of_lt {α β γ : Type} (f : α → β → γ) (d : γ) (d1 : α) (d2 : β) :
    ∀ (l1 : List α) (l2 : List β) (i : Nat), i < l1.length → i < l2.length →
      (List.zipWith f l1 l2).getD i d = f (l1.getD i d1) (l2.getD i d2) := by
  intro l1
  induction l1 with
  | nil => intro l2 i hi _; simp at hi
  | cons x xs ih =>
    intro l2 i hi1 hi2
    cases l2 with
    | nil => simp at hi2
    | cons y ys =>
      cases i with
      | zero => rfl
      | succ j =>
        simp only [List.zipWith_cons_cons, List.getD_cons_succ]
        exact ih ys j (by simpa using hi1) (by simpa using hi2)

/-- C7: for every valid input, the explanation sequence has exactly `width`
entries, positionally aligned with the result (index 0 = most significant
bit), and the entry at position `i` is built from the padded operand bits
and the `i`-th character of the result string: `"<bitA> <OP> <bitB> =
<result>"` for binary operations, `"<bitA> NOT = <result>"` for NOT. -/
theorem explanation_sequence_invariant (A B op : String)
    (hA : isValidBinary A = true) (hB : isValidBinary B = true)
    (hop : op ∈ operations) :
    (performOperation A B op).explanations.length = max A.length B.length ∧
    (∀ i, i < max A.length B.length →
      (performOperation A B op).explanations.getD i "" =
        (if op = "NOT" then
          mkNotExplanation
            ((padStart A (max A.length B.length) '0').data.getD i ' ')
            ((performOperation A B op).result.data.getD i ' ')
        else
          mkBinaryExplanation
            ((padStart A (max A.length B.length) '0').data.getD i ' ')
            ((padStart B (max A.length B.length) '0').data.getD i ' ') op
            ((performOperation A B op).result.data.getD i ' '))) := by
  have hw1 : (padStart A (max A.length B.length) '0').data.length = max A.length B.length :=
    padStart_data_length _ _ _ (Nat.le_max_left _ _)
  have hw2 : (padStart B (max A.length B.length) '0').data.length = max A.length B.length :=
    padStart_data_length _ _ _ (Nat.le_max_right _ _)
  by_cases hnot : op = "NOT"
  · subst hnot
    constructor
    · rw [performOperation_explanations_not, List.length_map, hw1]
    · intro i hi
      rw [if_pos rfl, performOperation_explanations_not, performOperation_result_not,
        getD_map_of_lt _ _ ' ' _ i (by omega),
        getD_map_of_lt jsNotBit ' ' ' ' _ i (by omega)]
  · constructor
    · rw [performOperation_explanations_ne_not A B op hnot, List.length_zipWith, hw1, hw2,
        Nat.min_self]
    · intro i hi
      rw [if_neg hnot, performOperation_explanations_ne_not A B op hnot,
        performOperation_result_of_ne_not A B op hnot,
        getD_zipWith_of_lt _ _ ' ' ' ' _ _ i (by omega) (by omega),
        getD_zipWith_of_lt _ _ ' ' ' ' _ _ i (by omega) (by omega)]

/-- Witness for C7 at the concrete input `evaluate("101","11",AND)`. -/
theorem explanation_sequence_invariant_witness :
    (performOperation "101" "11" "AND").explanations.length = max "101".length "11".length ∧
    (∀ i, i < max "101".length "11".length →
      (performOperation "101" "11" "AND").explanations.getD i "" =
        (if "AND" = "NOT" then
          mkNotExplanation
            ((padStart "101" (max "101".length "11".length) '0').data.getD i ' ')
            ((performOperation "101" "11" "AND").result.data.getD i ' ')
        else
          mkBinaryExplanation
            ((padStart "101" (max "101".length "11".length) '0').data.getD i ' ')
            ((padStart "11" (max "101".length "11".length) '0').data.getD i ' ') "AND"
            ((performOperation "101" "11" "AND").result.data.getD i ' '))) :=
  explanation_sequence_invariant "101" "11" "AND" (by decide) (by decide) (by decide)

/- ### Effectful wrapper: determinism (C9) -/

/-- Ambient state threaded through the effectful wrapper of
`performOperation`: console output (message, color), the log file lines,
the stream of pseudo-random numbers consumed by `adaptiveDelay`
(`Math.random()`), and a clock for timestamps. -/
structure World where
  printed : List (String × String)
  logFileLines : List String
  randomStream : Nat → Nat
  clock : Nat

/-- Embedding of `print(message, color)` (line 70 of `src/lib/index.js`). -/
def printW (w : World) (message color : String) : World :=
  { w with printed := w.printed ++ [(message, color)] }

/-- Embedding of `adaptiveDelay` (lines 97-101): consume one pseudo-random number and
advance the clock by the resulting delay. -/
def adaptiveDelayW (w : World) : World :=
  { w with clock := w.clock + w.randomStream 0 + 100,
           randomStream := fun n => w.randomStream (n + 1) }

/-- Embedding of `Logger.logOperation` (lines 164-176): append a timestamped log line. -/
def logOperationW (w : World) (message level : String) : World :=
  { w with logFileLines := w.logFileLines ++
      ["[" ++ Nat.repr w.clock ++ "] [" ++ level.toUpper ++ "] " ++ message] }

/-- Embedding of `Logger.logStep` (lines 197-201): print, log, then delay. -/
def logStepW (w : World) (message color : String) : World :=
  adaptiveDelayW (logOperationW (printW w message color) message "info")

/-- Embedding of `Logger.logVerbose` (lines 208-210): log at debug level. -/
def logVerboseW (w : World) (message : String) : World :=
  logOperationW w message "debug"

/-- How JS renders the result of `parseInt`: `NaN` when it is not a number. -/
def decimalRepr : Option Nat → String
  | some n => Nat.repr n
  | none => "NaN"

/-- Embedding of `Processor.performOperation` (lines 344-388 of `src/lib/index.js`) with
its interleaved console/log/delay side effects made explicit: the same
computation as `performOperation`, threading a `World` through every
`logStep`, `logVerbose`, `print` and the final `logOperation`. -/
def performOperationRun (binary1 binary2 operation : String) (w0 : World) :
    OperationResult × World :=
  let w1 := logStepW w0 "Activating system services (systemd simulation)..." "magenta"
  let w2 := logVerboseW w1 "Service: networkd started"
  let w3 := logStepW w2 "Configuring network stack (TCP/IP initialization)..." "magenta"
  let w4 := logStepW w3 ("Executing " ++ operation ++ " via CPU...") "magenta"
  let maxLen := max binary1.length binary2.length
  let b1 := padStart binary1 maxLen '0'
  let b2 := padStart binary2 maxLen '0'
  let decimal1 := parseIntBin b1
  let decimal2 := parseIntBin b2
  let w5 := printW w4 ("  Input A: " ++ b1 ++ " (decimal: " ++ decimalRepr decimal1 ++ ")") "cyan"
  let w6 := if operation ≠ "NOT" then
      printW w5 ("  Input B: " ++ b2 ++ " (decimal: " ++ decimalRepr decimal2 ++ ")") "cyan"
    else w5
  let w7 := printW w6 ("Operation: " ++ operation) "magenta"
  let w8 := printW w7 ("Formula: Result = " ++
      (if operation = "NOT" then "NOT A" else "A " ++ operation ++ " B")) "magenta"
  let w9 := printW w8 (" Bit |  A |" ++ (if operation = "NOT" then "" else "  B |")
      ++ " Result | Explanation") "magenta"
  let w10 := printW w9 ("-----|----|" ++ (if operation = "NOT" then "" else "----|")
      ++ "--------|-------------") "magenta"
  if operation = "NOT" then
    let result := String.mk (b1.data.map jsNotBit)
    let pairs := b1.data.zip result.data
    let explanations := pairs.map (fun p => mkNotExplanation p.1 p.2)
    let tableOutput := pairs.enum.map (fun q => mkNotRow q.1 q.2.1 q.2.2)
    let w11 := tableOutput.foldl (fun w line => printW w line "magenta") w10
    let decimalResult := parseIntBin result
    let w12 := printW w11 ("Result: " ++ result ++ " (decimal: "
        ++ decimalRepr decimalResult ++ ")") "green"
    let w13 := logOperationW w12 ("Operation " ++ operation ++ " executed. Inputs: " ++ b1
        ++ " (decimal: " ++ decimalRepr decimal1 ++ "), " ++ b2 ++ " (decimal: "
        ++ decimalRepr decimal2 ++ "). Result: " ++ result ++ " (decimal: "
        ++ decimalRepr decimalResult ++ ")") "info"
    ({ result := result, decimal := decimalResult,
       explanations := explanations, tableOutput := tableOutput }, w13)
  else
    let pairs := b1.data.zip b2.data
    let resBits := pairs.map (fun p => computeBitOperation p.1 p.2 operation)
    let result := String.mk resBits
    let explanations := (pairs.zip resBits).map
      (fun q => mkBinaryExplanation q.1.1 q.1.2 operation q.2)
    let tableOutput := (pairs.zip resBits).enum.map
      (fun q => mkBinaryRow q.1 q.2.1.1 q.2.1.2 operation q.2.2)
    let w11 := tableOutput.foldl (fun w line => printW w line "magenta") w10
    let decimalResult := parseIntBin result
    let w12 := printW w11 ("Result: " ++ result ++ " (decimal: "
        ++ decimalRepr decimalResult ++ ")") "green"
    let w13 := logOperationW w12 ("Operation " ++ operation ++ " executed. Inputs: " ++ b1
        ++ " (decimal: " ++ decimalRepr decimal1 ++ "), " ++ b2 ++ " (decimal: "
        ++ decimalRepr decimal2 ++ "). Result: " ++ result ++ " (decimal: "
        ++ decimalRepr decimalResult ++ ")") "info"
    ({ result := result, decimal := decimalResult,
       explanations := explanations, tableOutput := tableOutput }, w13)

/-- The computed `OperationResult` of the effectful wrapper is exactly the
pure `performOperation`: no side effect feeds back into the result. -/
lemma performOperationRun_fst (A B op : String) (w : World) :
    (performOperationRun A B op w).1 = performOperation A B op := by
  by_cases h : op = "NOT" <;>
    simp only [performOperationRun, performOperation, h, if_pos, if_neg, if_true,
      ite_true, ite_false, reduceIte, ne_eq, not_true_eq_false, not_false_eq_true]

/-- C9: `evaluate` is deterministic — the `OperationResult` (result string,
decimal value, explanation sequence, table rows) computed by
`performOperation` does not depend on the ambient world: any two runs from
arbitrary worlds (different random delay streams, clocks, console and log
states) produce the identical result. -/
theorem evaluate_deterministic (A B op : String) (w1 w2 : World) :
    (performOperationRun A B op w1).1 = (performOperationRun A B op w2).1 := by
  rw [performOperationRun_fst, performOperationRun_fst]

/- ### Decimal homomorphism (C10) -/

/-- The bit denoted by a binary character. -/
def bitB (c : Char) : Bool := c = '1'

/-- Value of a bit list, least-significant bit first. -/
def valLE : List Bool → Nat
  | [] => 0
  | b :: bs => Nat.bit b (valLE bs)

lemma valLE_append_singleton : ∀ (xs : List Bool) (b : Bool),
    valLE (xs ++ [b]) = valLE xs + b.toNat * 2 ^ xs.length := by
  intro xs
  induction xs with
  | nil => intro b; simp [valLE, Nat.bit_val]
  | cons x xs ih =>
    intro b
    rw [List.cons_append,
      show valLE (x :: (xs ++ [b])) = Nat.bit x (valLE (xs ++ [b])) from rfl,
      show valLE (x :: xs) = Nat.bit x (valLE xs) from rfl,
      ih b, Nat.bit_val, Nat.bit_val, List.length_cons]
    ring

lemma if_one_eq_toNat (c : Char) : (if c = '1' then 1 else 0) = (bitB c).toNat := by
  by_cases hc : c = '1' <;> simp [bitB, hc]

lemma foldl_step_general : ∀ (l : List Char) (acc : Nat),
    l.foldl (fun acc c => 2 * acc + (if c = '1' then 1 else 0)) acc
      = acc * 2 ^ l.length + valLE ((l.map bitB).reverse) := by
  intro l
  induction l with
  | nil => intro acc; simp [valLE]
  | cons c cs ih =>
    intro acc
    rw [List.foldl_cons, ih, List.map_cons, List.reverse_cons, valLE_append_singleton,
      List.length_reverse, List.length_map, List.length_cons, if_one_eq_toNat]
    ring

lemma binValue_eq_valLE (s : String) :
    binValue s = valLE ((s.data.map bitB).reverse) := by
  unfold binValue
  rw [foldl_step_general]
  simp

lemma foldl_step_replicate_zero : ∀ k : Nat,
    (List.replicate k '0').foldl (fun acc c => 2 * acc + (if c = '1' then 1 else 0)) 0 = 0 := by
  intro k
  induction k with
  | zero => rfl
  | succ j ih => simpa [List.replicate_succ] using ih

lemma binValue_padStart (s : String) (n : Nat) :
    binValue (padStart s n '0') = binValue s := by
  unfold binValue
  rw [padStart_data, List.foldl_append, foldl_step_replicate_zero]

lemma map_bitB_zipWith (f : Char → Char → Char) (g : Bool → Bool → Bool)
    (hfg : ∀ c d, (c = '0' ∨ c = '1') → (d = '0' ∨ d = '1') →
      bitB (f c d) = g (bitB c) (bitB d)) :
    ∀ (l1 l2 : List Char), allBin l1 → allBin l2 →
      (List.zipWith f l1 l2).map bitB
        = List.zipWith g (l1.map bitB) (l2.map bitB) := by
  intro l1
  induction l1 with
  | nil => intro l2 _ _; rfl
  | cons x xs ih =>
    intro l2 h1 h2
    cases l2 with
    | nil => rfl
    | cons y ys =>
      have hx := h1 x (List.mem_cons_self x xs)
      have hy := h2 y (List.mem_cons_self y ys)
      have h1' : allBin xs := fun c hc => h1 c (List.mem_cons_of_mem x hc)
      have h2' : allBin ys := fun c hc => h2 c (List.mem_cons_of_mem y hc)
      simp only [List.zipWith_cons_cons, List.map_cons, hfg x y hx hy, ih ys h1' h2']

lemma bit_land_bit (x y : Bool) (m n : Nat) :
    Nat.bit x m &&& Nat.bit y n = Nat.bit (x && y) (m &&& n) := by
  apply Nat.eq_of_testBit_eq
  intro i
  cases i with
  | zero => simp [Nat.testBit_and, Nat.testBit_bit_zero]
  | succ j => simp [Nat.testBit_and, Nat.testBit_add_one, Nat.bit_div_two]

lemma bit_lor_bit (x y : Bool) (m n : Nat) :
    Nat.bit x m ||| Nat.bit y n = Nat.bit (x || y) (m ||| n) := by
  apply Nat.eq_of_testBit_eq
  intro i
  cases i with
  | zero => simp [Nat.testBit_or, Nat.testBit_bit_zero]
  | succ j => simp [Nat.testBit_or, Nat.testBit_add_one, Nat.bit_div_two]

lemma bit_xor_bit (x y : Bool) (m n : Nat) :
    Nat.bit x m ^^^ Nat.bit y n = Nat.bit (x.xor y) (m ^^^ n) := by
  apply Nat.eq_of_testBit_eq
  intro i
  cases i with
  | zero => simp [Nat.testBit_xor, Nat.testBit_bit_zero]
  | succ j => simp [Nat.testBit_xor, Nat.testBit_add_one, Nat.bit_div_two]

lemma valLE_zipWith_and : ∀ (xs ys : List Bool), xs.length = ys.length →
    valLE (List.zipWith (fun x y => x && y) xs ys) = valLE xs &&& valLE ys := by
  intro xs
  induction xs with
  | nil =>
    intro ys h
    simp [valLE]
  | cons x xs ih =>
    intro ys h
    cases ys with
    | nil => simp at h
    | cons y ys =>
      simp only [List.zipWith_cons_cons, valLE, ih ys (by simpa using h), bit_land_bit]

lemma valLE_zipWith_or : ∀ (xs ys : List Bool), xs.length = ys.length →
    valLE (List.zipWith (fun x y => x || y) xs ys) = valLE xs ||| valLE ys := by
  intro xs
  induction xs with
  | nil =>
    intro ys h
    cases ys with
    | nil => rfl
    | cons y ys => simp at h
  | cons x xs ih =>
    intro ys h
    cases ys with
    | nil => simp at h
    | cons y ys =>
      simp only [List.zipWith_cons_cons, valLE, ih ys (by simpa using h), bit_lor_bit]

lemma valLE_zipWith_xor : ∀ (xs ys : List Bool), xs.length = ys.length →
    valLE (List.zipWith (fun x y => x.xor y) xs ys) = valLE xs ^^^ valLE ys := by
  intro xs
  induction xs with
  | nil =>
    intro ys h
    cases ys with
    | nil => rfl
    | cons y ys => simp at h
  | cons x xs ih =>
    intro ys h
    cases ys with
    | nil => simp at h
    | cons y ys =>
      simp only [List.zipWith_cons_cons, valLE, ih ys (by simpa using h), bit_xor_bit]

lemma decimal_bitwise_general (op : String) (hop : op ≠ "NOT")
    (g : Bool → Bool → Bool) (G : Nat → Nat → Nat)
    (hfg : ∀ c d, (c = '0' ∨ c = '1') → (d = '0' ∨ d = '1') →
      bitB (computeBitOperation c d op) = g (bitB c) (bitB d))
    (hG : ∀ xs ys, xs.length = ys.length →
      valLE (List.zipWith g xs ys) = G (valLE xs) (valLE ys))
    (A B : String) (hA : isValidBinary A = true) (hB : isValidBinary B = true) :
    (performOperation A B op).decimal = some (G (binValue A) (binValue B)) := by
  have hw : 1 ≤ max A.length B.length := by
    have := (isValidBinary_length hA).1
    omega
  have hbinA : allBin (padStart A (max A.length B.length) '0').data :=
    padStart_allBin A _ (isValidBinary_allBin hA)
  have hbinB : allBin (padStart B (max A.length B.length) '0').data :=
    padStart_allBin B _ (isValidBinary_allBin hB)
  have hw1 : (padStart A (max A.length B.length) '0').data.length = max A.length B.length :=
    padStart_data_length _ _ _ (Nat.le_max_left _ _)
  have hw2 : (padStart B (max A.length B.length) '0').data.length = max A.length B.length :=
    padStart_data_length _ _ _ (Nat.le_max_right _ _)
  rw [performOperation_decimal_of_ne_not A B op hop hw]
  congr 1
  rw [binValue_eq_valLE, performOperation_result_of_ne_not A B op hop,
    map_bitB_zipWith _ g hfg _ _ hbinA hbinB,
    List.reverse_zipWith (by rw [List.length_map, List.length_map, hw1, hw2]),
    hG _ _ (by rw [List.length_reverse, List.length_reverse,
      List.length_map, List.length_map, hw1, hw2]),
    ← binValue_eq_valLE, ← binValue_eq_valLE, binValue_padStart, binValue_padStart]

/-- C10: the decimal homomorphism — for valid operands, the decimal value of
the AND result is the integer bitwise-and of the operands' decimal values,
and likewise OR corresponds to integer bitwise-or and XOR to integer
bitwise-xor. -/
theorem decimal_homomorphism (A B : String)
    (hA : isValidBinary A = true) (hB : isValidBinary B = true) :
    (performOperation A B "AND").decimal = some (binValue A &&& binValue B) ∧
    (performOperation A B "OR").decimal = some (binValue A ||| binValue B) ∧
    (performOperation A B "XOR").decimal = some (binValue A ^^^ binValue B) := by
  refine ⟨?_, ?_, ?_⟩
  · exact decimal_bitwise_general "AND" (by decide) (fun x y => x && y) (fun m n => m &&& n)
      (fun c d hc hd => by rcases hc with rfl | rfl <;> rcases hd with rfl | rfl <;> decide)
      valLE_zipWith_and A B hA hB
  · exact decimal_bitwise_general "OR" (by decide) (fun x y => x || y) (fun m n => m ||| n)
      (fun c d hc hd => by rcases hc with rfl | rfl <;> rcases hd with rfl | rfl <;> decide)
      valLE_zipWith_or A B hA hB
  · exact decimal_bitwise_general "XOR" (by decide) (fun x y => x.xor y) (fun m n => m ^^^ n)
      (fun c d hc hd => by rcases hc with rfl | rfl <;> rcases hd with rfl | rfl <;> decide)
      valLE_zipWith_xor A B hA hB

/-- Witness for C10 at the concrete operands `"1010"` and `"0110"`. -/
theorem decimal_homomorphism_witness :
    (performOperation "1010" "0110" "AND").decimal
      = some (binValue "1010" &&& binValue "0110") ∧
    (performOperation "1010" "0110" "OR").decimal
      = some (binValue "1010" ||| binValue "0110") ∧
    (performOperation "1010" "0110" "XOR").decimal
      = some (binValue "1010" ^^^ binValue "0110") :=
  decimal_homomorphism "1010" "0110" (by decide) (by decide)

end BinaryOsSim
